import Mathlib

/-!
Shallow embedding of the terraform-provider-slicer provider layer
(internal/provider) for verification of its specification.

Go strings are modelled as `List Char`; byte payloads as `List Nat`
(each < 256); nullable terraform-framework values as `Option`.
-/

set_option maxRecDepth 4096

namespace Slicer

/-! ### SHA-256 (crypto/sha256, as called by `copyFile`)

`copyFile` computes `sha256.Sum256(content)` and formats it with
`fmt.Sprintf("%x", hash)` (lowercase hex).  We embed FIPS 180-4 SHA-256
over byte lists, with 32-bit words as `Nat` reduced mod 2^32. -/

/-- Truncate to a 32-bit word. -/
def w32 (n : Nat) : Nat := n % 4294967296

/-- 32-bit modular addition. -/
def add32 (a b : Nat) : Nat := (a + b) % 4294967296

/-- Logical right shift on a 32-bit word. -/
def shr32 (n x : Nat) : Nat := x / 2 ^ n

/-- Right rotation of a 32-bit word (input assumed < 2^32). -/
def rotr32 (n x : Nat) : Nat := x / 2 ^ n + x % 2 ^ n * 2 ^ (32 - n)

/-- SHA-256 Ch function. -/
def ch32 (x y z : Nat) : Nat := (x &&& y) ^^^ ((x ^^^ 4294967295) &&& z)

/-- SHA-256 Maj function. -/
def maj32 (x y z : Nat) : Nat := (x &&& y) ^^^ (x &&& z) ^^^ (y &&& z)

/-- SHA-256 Σ0. -/
def bigSigma0 (x : Nat) : Nat := rotr32 2 x ^^^ rotr32 13 x ^^^ rotr32 22 x

/-- SHA-256 Σ1. -/
def bigSigma1 (x : Nat) : Nat := rotr32 6 x ^^^ rotr32 11 x ^^^ rotr32 25 x

/-- SHA-256 σ0. -/
def smallSigma0 (x : Nat) : Nat := rotr32 7 x ^^^ rotr32 18 x ^^^ shr32 3 x

/-- SHA-256 σ1. -/
def smallSigma1 (x : Nat) : Nat := rotr32 17 x ^^^ rotr32 19 x ^^^ shr32 10 x

/-- SHA-256 round constants (FIPS 180-4 §4.2.2, written in decimal). -/
def sha256K : List Nat :=
  [1116352408, 1899447441, 3049323471, 3921009573, 961987163, 1508970993,
   2453635748, 2870763221, 3624381080, 310598401, 607225278, 1426881987,
   1925078388, 2162078206, 2614888103, 3248222580, 3835390401, 4022224774,
   264347078, 604807628, 770255983, 1249150122, 1555081692, 1996064986,
   2554220882, 2821834349, 2952996808, 3210313671, 3336571891, 3584528711,
   113926993, 338241895, 666307205, 773529912, 1294757372, 1396182291,
   1695183700, 1986661051, 2177026350, 2456956037, 2730485921, 2820302411,
   3259730800, 3345764771, 3516065817, 3600352804, 4094571909, 275423344,
   430227734, 506948616, 659060556, 883997877, 958139571, 1322822218,
   1537002063, 1747873779, 1955562222, 2024104815, 2227730452, 2361852424,
   2428436474, 2756734187, 3204031479, 3329325298]

/-- SHA-256 initial hash state (FIPS 180-4 §5.3.3, written in decimal). -/
def sha256H0 : List Nat :=
  [1779033703, 3144134277, 1013904242, 2773480762,
   1359893119, 2600822924, 528734635, 1541459225]

/-- Big-endian byte serialization of `x` into `n` bytes. -/
def bytesBE (n x : Nat) : List Nat :=
  (List.range n).map (fun i => x / 2 ^ (8 * (n - 1 - i)) % 256)

/-- FIPS 180-4 message padding: append 0x80, zeros, and the 64-bit
big-endian bit length, to a multiple of 64 bytes. -/
def sha256pad (msg : List Nat) : List Nat :=
  let r := (msg.length + 1) % 64
  let k := (120 - r) % 64
  msg ++ 0x80 :: List.replicate k 0 ++ bytesBE 8 (8 * msg.length)

/-- Group bytes into big-endian 32-bit words. -/
def bytesToWords : List Nat → List Nat
  | a :: b :: c :: d :: rest => (((a * 256 + b) * 256 + c) * 256 + d) :: bytesToWords rest
  | _ => []

/-- Message schedule: extend 16 words to 64. -/
def sha256schedule (block : List Nat) : Array Nat :=
  (List.range 48).foldl
    (fun w _ =>
      let t := w.size
      w.push (add32 (add32 (smallSigma1 (w.getD (t - 2) 0)) (w.getD (t - 7) 0))
                    (add32 (smallSigma0 (w.getD (t - 15) 0)) (w.getD (t - 16) 0))))
    block.toArray

/-- One SHA-256 compression round. -/
def sha256round (kw : Nat × Nat) (s : Nat × Nat × Nat × Nat × Nat × Nat × Nat × Nat) :
    Nat × Nat × Nat × Nat × Nat × Nat × Nat × Nat :=
  match s with
  | (a, b, c, d, e, f, g, h) =>
    let t1 := add32 (add32 (add32 h (bigSigma1 e)) (add32 (ch32 e f g) kw.1)) kw.2
    let t2 := add32 (bigSigma0 a) (maj32 a b c)
    (add32 t1 t2, a, b, c, add32 d t1, e, f, g)

/-- Compress one 64-byte block (given as 16 words) into the hash state. -/
def sha256compress (h : List Nat) (block : List Nat) : List Nat :=
  let w := sha256schedule block
  let init : Nat × Nat × Nat × Nat × Nat × Nat × Nat × Nat :=
    (h.getD 0 0, h.getD 1 0, h.getD 2 0, h.getD 3 0, h.getD 4 0, h.getD 5 0, h.getD 6 0, h.getD 7 0)
  let fin := (List.range 64).foldl
    (fun s i => sha256round (sha256K.getD i 0, w.getD i 0) s) init
  match fin with
  | (a, b, c, d, e, f, g, hh) =>
    [add32 (h.getD 0 0) a, add32 (h.getD 1 0) b, add32 (h.getD 2 0) c, add32 (h.getD 3 0) d,
     add32 (h.getD 4 0) e, add32 (h.getD 5 0) f, add32 (h.getD 6 0) g, add32 (h.getD 7 0) hh]

/-- SHA-256 digest of a byte list, as 8 words. -/
def sha256 (msg : List Nat) : List Nat :=
  let padded := sha256pad msg
  let nblocks := padded.length / 64
  (List.range nblocks).foldl
    (fun h i => sha256compress h (bytesToWords ((padded.drop (64 * i)).take 64)))
    sha256H0

/-- Lowercase hex digit, as produced by `fmt.Sprintf("%x", ...)`. -/
def hexDigit (n : Nat) : Char := if n < 10 then Char.ofNat (48 + n) else Char.ofNat (87 + n)

/-- A 32-bit word as 8 lowercase hex characters. -/
def wordHex (x : Nat) : List Char := (List.range 8).map (fun i => hexDigit (x / 2 ^ (4 * (7 - i)) % 16))

/-- Lowercase hex SHA-256 digest of a byte list: the value `copyFile`
computes with `sha256.Sum256` + `fmt.Sprintf("%x", hash)`. -/
def sha256hex (msg : List Nat) : List Char := ((sha256 msg).map wordHex).flatten

/-! ### Go `strings` helpers used by the provider layer

`strings.Split(s, sep)` and `strings.SplitN(s, sep, 2)` are only called
with single-character separators (`"/"`, `"="`); we embed them over
`List Char` for those call shapes. -/

/-- `strings.Split(s, sep)` for a one-character separator. -/
def goSplit (sep : Char) : List Char → List (List Char)
  | [] => [[]]
  | c :: cs =>
    match goSplit sep cs with
    | [] => [[]]
    | t :: ts => if c = sep then [] :: t :: ts else (c :: t) :: ts

/-- `strings.SplitN(s, sep, 2)` for a one-character separator: at most
two parts, split at the first occurrence of `sep`. -/
def goSplitN2 (sep : Char) (s : List Char) : List (List Char) :=
  match s.dropWhile (fun c => c != sep) with
  | [] => [s]
  | _ :: rest => [s.takeWhile (fun c => c != sep), rest]

/-! ### Exec resource (`exec_resource.go`)

`executeCommand` consumes the channel of results from `client.Exec`.
A result chunk, as the provider-layer code sees it, carries stdout and
stderr fragments, an `int` exit code and an error string. -/

/-- A result chunk as consumed by `executeCommand` (the
`slicer` exec result, fields as used by the provider code). -/
structure ExecChunk where
  stdout : List Char
  stderr : List Char
  exitCode : Int
  error : List Char
deriving DecidableEq

/-- The four values `executeCommand` returns. -/
structure ExecOutcome where
  stdout : List Char
  stderr : List Char
  exitCode : Int
  err : Option (List Char)
deriving DecidableEq

/-- The `for result := range resultChan` loop of `executeCommand`:
on a chunk with a non-empty error string it returns the builders so
far, that chunk's exit code, and `exec error: <error>`; otherwise it
appends the non-empty fragments to the builders, overwrites the exit
code with the chunk's, and continues. -/
def consumeChunks : List ExecChunk → List Char → List Char → Int → ExecOutcome
  | [], out, errAcc, code => ⟨out, errAcc, code, none⟩
  | c :: cs, out, errAcc, _ =>
    if c.error ≠ [] then
      ⟨out, errAcc, c.exitCode, some ("exec error: ".toList ++ c.error)⟩
    else
      consumeChunks cs
        (if c.stdout ≠ [] then out ++ c.stdout else out)
        (if c.stderr ≠ [] then errAcc ++ c.stderr else errAcc)
        c.exitCode

/-- `executeCommand`, given the chunk sequence delivered by the remote:
builders start empty and the named return `exitCode` starts at 0. -/
def executeCommand (chunks : List ExecChunk) : ExecOutcome :=
  consumeChunks chunks [] [] 0

/-- Number of chunks the `executeCommand` loop actually receives from
the channel: it stops at the first chunk carrying a non-empty error. -/
def consumedChunks : List ExecChunk → Nat
  | [] => 0
  | c :: cs => if c.error ≠ [] then 1 else 1 + consumedChunks cs

/-- `ExecResource.Create` after `executeCommand` returns: an error is
surfaced as the diagnostic `Unable to execute command: <err>` and no
state is written; on success the computed id/exit code/stdout/stderr
are stored. -/
structure ExecState where
  id : List Char
  exitCode : Int
  stdout : List Char
  stderr : List Char
deriving DecidableEq

/-- The post-`executeCommand` part of `ExecResource.Create`. -/
def execCreate (hostname command : List Char) (chunks : List ExecChunk) :
    Except (List Char) ExecState :=
  match executeCommand chunks with
  | ⟨_, _, _, some e⟩ =>
    .error ("Unable to execute command: ".toList ++ e)
  | ⟨out, errOut, code, none⟩ =>
    .ok ⟨hostname ++ '/' :: command, code, out, errOut⟩

/-- A chunk as it crosses the wire.  Modelled from the spec: the
`slicer` result struct is not under `src/`; §3 of the spec gives a
Result Chunk "a terminal exit code (meaningful only on the final/any
chunk that sets it)", so the wire form carries an optional exit code. -/
structure WireChunk where
  stdout : List Char
  stderr : List Char
  exitCode : Option Int
  error : List Char
deriving DecidableEq

/-- Modelled from the spec: decoding of a wire chunk into the Go
struct the provider consumes.  A chunk that does not set an exit code
decodes to the Go zero value 0 in the `int`-typed field. -/
def decodeChunk (w : WireChunk) : ExecChunk :=
  ⟨w.stdout, w.stderr, w.exitCode.getD 0, w.error⟩

/-- The exit code of the last chunk that set a non-absent exit code
(the value the spec calls authoritative). -/
def lastSetExitCode (ws : List WireChunk) : Option Int :=
  (ws.filterMap (fun w => w.exitCode)).getLast?

/-! ### File resource (`file_resource.go`)

`copyFile` resolves the payload from the `content` attribute or by
reading the `source` file, hashes it with SHA-256, writes it to a temp
file and hands that file to `client.CpToVM` with owner/group/permission
metadata and mode `"binary"`.  `CpToVM` itself lives in the `slicer`
package, which is not under `src/`; it is abstracted as a caller-supplied
transfer function over the arguments `copyFile` passes it. -/

/-- The arguments `copyFile` passes to `client.CpToVM` (the temp file
stands for its byte payload). -/
structure TransferArgs where
  hostname : List Char
  payload : List Nat
  destination : List Char
  owner : Int
  group : Int
  permissions : List Char
  mode : List Char
deriving DecidableEq

/-- Plan data of a `slicer_file` resource (`FileResourceModel`);
`content` is the UTF-8 bytes of the `content` attribute when set. -/
structure FileModel where
  hostname : List Char
  destination : List Char
  content : Option (List Nat)
  source : Option (List Char)
  permissions : List Char
  owner : Int
  group : Int

/-- The computed attributes `FileResource.Create`/`Update` store. -/
structure FileState where
  id : List Char
  contentHash : List Char
deriving DecidableEq

/-- Payload resolution at the top of `copyFile`: the `content` bytes if
non-null, otherwise `os.ReadFile(source)` (the local filesystem is the
function `fs`). -/
def readContent (fs : List Char → Option (List Nat)) (m : FileModel) :
    Except (List Char) (List Nat) :=
  match m.content with
  | some c => .ok c
  | none =>
    match fs (m.source.getD []) with
    | some bs => .ok bs
    | none => .error ("failed to read source file".toList)

/-- `copyFile`: resolve the payload, compute the lowercase hex SHA-256
digest, transfer the payload via `CpToVM` (abstracted as `transfer`)
with mode `"binary"`, and return the digest. -/
def copyFile (fs : List Char → Option (List Nat))
    (transfer : TransferArgs → Except (List Char) Unit) (m : FileModel) :
    Except (List Char) (List Char) :=
  match readContent fs m with
  | .error e => .error e
  | .ok content =>
    let contentHash := sha256hex content
    match transfer ⟨m.hostname, content, m.destination, m.owner, m.group,
                    m.permissions, "binary".toList⟩ with
    | .error e => .error ("failed to copy file to VM: ".toList ++ e)
    | .ok _ => .ok contentHash

/-- `FileResource.Create`: reject a plan with both `content` and
`source` null ("Missing File Content") or both non-null ("Conflicting
Attributes") before calling `copyFile`; on success store the id
`hostname:destination` and the digest as `content_hash`. -/
def fileCreate (fs : List Char → Option (List Nat))
    (transfer : TransferArgs → Except (List Char) Unit) (m : FileModel) :
    Except (List Char) FileState :=
  if m.content.isNone ∧ m.source.isNone then
    .error ("Missing File Content".toList)
  else if m.content.isSome ∧ m.source.isSome then
    .error ("Conflicting Attributes".toList)
  else
    match copyFile fs transfer m with
    | .error e => .error ("Unable to copy file: ".toList ++ e)
    | .ok h => .ok ⟨m.hostname ++ ':' :: m.destination, h⟩

/-- `FileResource.Update`: re-runs `copyFile` and stores the returned
digest as `content_hash` (the id is left as it was in state). -/
def fileUpdate (fs : List Char → Option (List Nat))
    (transfer : TransferArgs → Except (List Char) Unit)
    (priorId : List Char) (m : FileModel) : Except (List Char) FileState :=
  match copyFile fs transfer m with
  | .error e => .error ("Unable to copy file: ".toList ++ e)
  | .ok h => .ok ⟨priorId, h⟩

/-! ### Secret resource and data source (`secret_resource.go`, secret data source)

The `slicer.Secret` read model is metadata only; modelled from the spec
(§3, §4.5: "metadata only: name, size, permissions, uid, gid — value is
never included by design"), consistent with every field access in
`src/`. -/

/-- Secret metadata as returned by `client.ListSecrets`.  By
construction it has no value field. -/
structure Secret where
  name : List Char
  size : Int
  permissions : List Char
  uid : Int
  gid : Int
deriving DecidableEq

/-- State of a `slicer_secret` resource (`SecretResourceModel`);
`value` is the sensitive write-only attribute. -/
structure SecretResourceModel where
  id : List Char
  name : List Char
  value : List Char
  permissions : List Char
  uid : Int
  gid : Int
deriving DecidableEq

/-- `SecretResource.Read`: find the secret by name in `ListSecrets`;
if absent, remove the resource from state (`none`); otherwise update
only permissions/uid/gid from the listing, keeping the rest of the
prior state (in particular `value`). -/
def secretRead (prior : SecretResourceModel) (secrets : List Secret) :
    Option SecretResourceModel :=
  match secrets.find? (fun s => s.name == prior.name) with
  | none => none
  | some found =>
    some { prior with
            permissions := found.permissions
            uid := found.uid
            gid := found.gid }

/-- Result of the `slicer_secret` data source (`SecretDataSourceModel`):
name, size, permissions, uid, gid — no value field exists in the model. -/
structure SecretDataSourceModel where
  name : List Char
  size : Int
  permissions : List Char
  uid : Int
  gid : Int
deriving DecidableEq

/-- `SecretDataSource.Read`: find the secret by name and expose only
its metadata; `none` models the "Not Found" diagnostic. -/
def secretDataSourceRead (name : List Char) (secrets : List Secret) :
    Option SecretDataSourceModel :=
  match secrets.find? (fun s => s.name == name) with
  | none => none
  | some found => some ⟨name, found.size, found.permissions, found.uid, found.gid⟩

/-! ### VM resource and data sources (`vm_resource.go`, VM data sources)

The `slicer.SlicerNode` read model is modelled from the spec (§3 VM
Record), with exactly the fields the `src/` code reads; `created_at`
is kept as the already-formatted timestamp string. -/

/-- A VM record as returned by `client.CreateVM`/`client.ListVMs`. -/
structure SlicerNode where
  hostname : List Char
  ip : List Char
  cpus : Int
  ramBytes : Int
  arch : List Char
  tags : List (List Char)
  createdAt : List Char
deriving DecidableEq

/-- The IP handling duplicated at every exposure site
(`VMResource.Create`/`Read`, the VM data sources):
`if strings.Contains(ip, "/") { ip = strings.Split(ip, "/")[0] }`. -/
def parseIP (ip : List Char) : List Char :=
  if ip.contains '/' then (goSplit '/' ip).headD [] else ip

/-- The computed attributes `VMResource.Create` stores from the
`CreateVM` result. -/
structure VMComputed where
  id : List Char
  hostname : List Char
  ip : List Char
  arch : List Char
  createdAt : List Char
deriving DecidableEq

/-- The tail of `VMResource.Create`: id and hostname from the result,
the IP with any CIDR suffix stripped, arch and the formatted
creation timestamp. -/
def vmCreateComputed (result : SlicerNode) : VMComputed :=
  ⟨result.hostname, result.hostname, parseIP result.ip, result.arch, result.createdAt⟩

/-- Tag encoding in `VMResource.Create`: each map entry becomes the
flat string `key=value` (`fmt.Sprintf("%s=%s", k, v)`). -/
def encodeTags (tags : List (List Char × List Char)) : List (List Char) :=
  tags.map (fun p => p.1 ++ '=' :: p.2)

/-- Tag parsing in `VMResource.Read` and the VM data sources: split
each tag on the first `=` with `strings.SplitN(tag, "=", 2)` and keep
the pair when two parts come back. -/
def decodeTags (tags : List (List Char)) : List (List Char × List Char) :=
  tags.filterMap (fun t =>
    match goSplitN2 '=' t with
    | [k, v] => some (k, v)
    | _ => none)

/-- State of a `slicer_vm` resource, restricted to the fields
`VMResource.Read` touches (tags held as the decoded association list). -/
structure VMState where
  hostname : List Char
  ip : List Char
  arch : List Char
  createdAt : List Char
  cpus : Option Int
  ramGB : Option Int
  tags : Option (List (List Char × List Char))
deriving DecidableEq

/-- `VMResource.Read`: find the VM by hostname in `ListVMs` (state is
removed when absent), strip the CIDR suffix from its IP, refresh
arch/created_at, and overwrite cpus/ram/tags only when the listing
carries non-zero/non-empty values. -/
def vmRead (prior : VMState) (vms : List SlicerNode) : Option VMState :=
  match vms.find? (fun v => v.hostname == prior.hostname) with
  | none => none
  | some found =>
    some { prior with
            ip := parseIP found.ip
            arch := found.arch
            createdAt := found.createdAt
            cpus := if found.cpus > 0 then some found.cpus else prior.cpus
            ramGB := if found.ramBytes > 0 then some (found.ramBytes / 1073741824)
                     else prior.ramGB
            tags := if found.tags.length > 0 then some (decodeTags found.tags)
                    else prior.tags }

/-- Result row of the `slicer_vm` data source (`VMDataSourceModel`). -/
structure VMDataSourceModel where
  hostname : List Char
  ip : List Char
  arch : List Char
  createdAt : List Char
  cpus : Option Int
  ramGB : Option Int
  tags : Option (List (List Char × List Char))
deriving DecidableEq

/-- `VMDataSource.Read`: find the VM by hostname ("Not Found" is
`none`), strip the CIDR suffix from its IP, and null out
cpus/ram/tags when the listing has zero/empty values. -/
def vmDataSourceRead (hostname : List Char) (vms : List SlicerNode) :
    Option VMDataSourceModel :=
  match vms.find? (fun v => v.hostname == hostname) with
  | none => none
  | some found =>
    some ⟨hostname, parseIP found.ip, found.arch, found.createdAt,
          if found.cpus > 0 then some found.cpus else none,
          if found.ramBytes > 0 then some (found.ramBytes / 1073741824) else none,
          if found.tags.length > 0 then some (decodeTags found.tags) else none⟩

/-- Plan data of a `slicer_vm` resource at create, restricted to the
fields `VMResource.Create` reads (tags as the map's association list). -/
structure VMPlan where
  hostGroup : List Char
  cpus : Option Int
  ramGB : Option Int
  persistent : Option Bool
  diskImage : Option (List Char)
  importUser : Option (List Char)
  userdata : Option (List Char)
  sshKeys : Option (List (List Char))
  secrets : Option (List (List Char))
  tags : Option (List (List Char × List Char))

/-- Modelled from the spec: `slicer.GiB` is not under `src/`; RAM
sizes are carried in bytes (§3), so `GiB n` is `n * 2^30`. -/
def GiB (n : Int) : Int := n * 1073741824

/-- The request `VMResource.Create` builds for `client.CreateVM`.
Optional numeric fields are `Option`: `some` iff the Go code assigns
the struct field (an unassigned field keeps the Go zero value and is
not sent). -/
structure SlicerCreateNodeRequest where
  persistent : Bool
  cpus : Option Int
  ramBytes : Option Int
  diskImage : Option (List Char)
  importUser : Option (List Char)
  userdata : Option (List Char)
  sshKeys : Option (List (List Char))
  secrets : Option (List (List Char))
  tags : List (List Char)
deriving DecidableEq

/-- The request-building prefix of `VMResource.Create`: CPU count and
RAM size are assigned only when the planned value is non-null and
strictly positive; string/list fields only when non-null; tags are
encoded as `key=value` strings. -/
def buildCreateRequest (m : VMPlan) : SlicerCreateNodeRequest :=
  { persistent := m.persistent.getD false
    cpus :=
      if m.cpus.isSome ∧ m.cpus.getD 0 > 0 then some (m.cpus.getD 0) else none
    ramBytes :=
      if m.ramGB.isSome ∧ m.ramGB.getD 0 > 0 then some (GiB (m.ramGB.getD 0)) else none
    diskImage := m.diskImage
    importUser := m.importUser
    userdata := m.userdata
    sshKeys := m.sshKeys
    secrets := m.secrets
    tags :=
      match m.tags with
      | none => []
      | some ts => encodeTags ts }

/-! ### Helper lemmas -/

/-- On an error-free chunk sequence the consumption loop appends every
fragment to the builders, takes the last chunk's exit code, and ends
without error. -/
theorem consumeChunks_no_error (chunks : List ExecChunk)
    (h : ∀ c ∈ chunks, c.error = []) (out errAcc : List Char) (code : Int) :
    consumeChunks chunks out errAcc code =
      ⟨out ++ (chunks.map ExecChunk.stdout).flatten,
       errAcc ++ (chunks.map ExecChunk.stderr).flatten,
       (chunks.map ExecChunk.exitCode).getLastD code,
       none⟩ := by
  induction chunks generalizing out errAcc code with
  | nil => simp [consumeChunks]
  | cons c cs ih =>
    have hc : c.error = [] := h c (List.mem_cons_self c cs)
    have hcs : ∀ x ∈ cs, x.error = [] := fun x hx => h x (List.mem_cons_of_mem _ hx)
    have hne : ¬ (c.error ≠ []) := by simp [hc]
    simp only [consumeChunks, if_neg hne, ih hcs, List.map_cons, List.flatten_cons,
      List.getLastD_cons]
    by_cases hs : c.stdout = [] <;> by_cases he : c.stderr = [] <;>
      simp [hs, he, List.append_assoc]

/-- The consumption loop stops at the first error chunk, returning the
fragments collected so far, that chunk's exit code and its error. -/
theorem consumeChunks_error (pre : List ExecChunk) (bad : ExecChunk)
    (rest : List ExecChunk) (hpre : ∀ c ∈ pre, c.error = [])
    (hbad : bad.error ≠ []) (out errAcc : List Char) (code : Int) :
    consumeChunks (pre ++ bad :: rest) out errAcc code =
      ⟨out ++ (pre.map ExecChunk.stdout).flatten,
       errAcc ++ (pre.map ExecChunk.stderr).flatten,
       bad.exitCode,
       some ("exec error: ".toList ++ bad.error)⟩ := by
  induction pre generalizing out errAcc code with
  | nil => simp [consumeChunks, hbad]
  | cons c cs ih =>
    have hc : c.error = [] := hpre c (List.mem_cons_self c cs)
    have hcs : ∀ x ∈ cs, x.error = [] := fun x hx => hpre x (List.mem_cons_of_mem _ hx)
    have hne : ¬ (c.error ≠ []) := by simp [hc]
    simp only [List.cons_append, consumeChunks, if_neg hne, List.map_cons,
      List.flatten_cons]
    by_cases hs : c.stdout = [] <;> by_cases he : c.stderr = [] <;>
      simp [hs, he, ih hcs, List.append_assoc]

/-- `goSplit` never returns an empty list of parts. -/
theorem goSplit_ne_nil (sep : Char) (s : List Char) : goSplit sep s ≠ [] := by
  cases s with
  | nil => simp [goSplit]
  | cons c cs =>
    simp only [goSplit]
    cases hg : goSplit sep cs with
    | nil => simp
    | cons t ts =>
      by_cases hc : c = sep <;> simp [hc]

/-- The first part of `strings.Split` is the longest prefix free of the
separator. -/
theorem goSplit_headD (sep : Char) (s : List Char) :
    (goSplit sep s).headD [] = s.takeWhile (fun c => c != sep) := by
  induction s with
  | nil => simp [goSplit]
  | cons c cs ih =>
    simp only [goSplit]
    cases hg : goSplit sep cs with
    | nil => exact absurd hg (goSplit_ne_nil sep cs)
    | cons t ts =>
      by_cases hc : c = sep
      · simp [hc, List.takeWhile_cons]
      · rw [hg] at ih
        simp only [List.headD_cons] at ih
        simp [hc, List.takeWhile_cons, ih]

/-- When the separator occurs in the string, the remainder after the
stripped prefix starts with the separator. -/
theorem dropWhile_of_mem (sep : Char) (s : List Char) (h : sep ∈ s) :
    ∃ rest, s.dropWhile (fun c => c != sep) = sep :: rest := by
  induction s with
  | nil => cases h
  | cons c cs ih =>
    by_cases hc : c = sep
    · subst hc
      exact ⟨cs, by simp [List.dropWhile_cons]⟩
    · have hmem : sep ∈ cs := by
        rcases List.mem_cons.mp h with h1 | h2
        · exact absurd h1.symm hc
        · exact h2
      rcases ih hmem with ⟨rest, hr⟩
      exact ⟨rest, by simp [List.dropWhile_cons, hc, hr]⟩

/-- `strings.SplitN(k ++ "=" ++ v, "=", 2)` recovers `[k, v]` when the
key carries no `=`. -/
theorem goSplitN2_encode (k v : List Char) (hk : '=' ∉ k) :
    goSplitN2 '=' (k ++ '=' :: v) = [k, v] := by
  have hdrop : (k ++ '=' :: v).dropWhile (fun c => c != '=') = '=' :: v := by
    induction k with
    | nil => simp [List.dropWhile_cons]
    | cons a k' ih =>
      have ha : a ≠ '=' := fun h => hk (h ▸ List.mem_cons_self a k')
      have hk' : '=' ∉ k' := fun h => hk (List.mem_cons_of_mem _ h)
      simp [List.dropWhile_cons, ha, ih hk']
  have htake : (k ++ '=' :: v).takeWhile (fun c => c != '=') = k := by
    clear hdrop
    induction k with
    | nil => simp [List.takeWhile_cons]
    | cons a k' ih =>
      have ha : a ≠ '=' := fun h => hk (h ▸ List.mem_cons_self a k')
      have hk' : '=' ∉ k' := fun h => hk (List.mem_cons_of_mem _ h)
      simp [List.takeWhile_cons, ha, ih hk']
  simp [goSplitN2, hdrop, htake]

/-! ### Claim theorems -/

/-- Validation of the SHA-256 embedding against FIPS 180-4 test vectors. -/
theorem sha256hex_test_vectors :
    sha256hex [97, 98, 99] =
      "ba7816bf8f01cfea414140de5dae2223b00361a396177a9cb410ff61f20015ad".toList ∧
    sha256hex [] =
      "e3b0c44298fc1c149afbf4c8996fb92427ae41e4649b934ca495991b7852b855".toList := by
  constructor <;> decide

/-- C3: for every exec session consumed without an error chunk, the
stdout returned by `executeCommand` is the concatenation of the
per-chunk stdout fragments in arrival order, the stderr likewise and
independently, and the result depends only on the concatenations, not
on the chunk boundaries. -/
theorem exec_output_concat (chunks : List ExecChunk)
    (h : ∀ c ∈ chunks, c.error = []) :
    (executeCommand chunks).stdout = (chunks.map ExecChunk.stdout).flatten ∧
    (executeCommand chunks).stderr = (chunks.map ExecChunk.stderr).flatten ∧
    ∀ chunks' : List ExecChunk, (∀ c ∈ chunks', c.error = []) →
      (chunks'.map ExecChunk.stdout).flatten = (chunks.map ExecChunk.stdout).flatten →
      (chunks'.map ExecChunk.stderr).flatten = (chunks.map ExecChunk.stderr).flatten →
      (executeCommand chunks').stdout = (executeCommand chunks).stdout ∧
      (executeCommand chunks').stderr = (executeCommand chunks).stderr := by
  have h1 := consumeChunks_no_error chunks h [] [] 0
  refine ⟨by simp [executeCommand, h1], by simp [executeCommand, h1], ?_⟩
  intro chunks' h' e1 e2
  have h2 := consumeChunks_no_error chunks' h' [] [] 0
  constructor <;> simp [executeCommand, h1, h2, e1, e2]

/-- Witness for C3 at a concrete two-chunk session. -/
theorem exec_output_concat_witness :
    (∀ c ∈ [(⟨"he".toList, "x".toList, 0, []⟩ : ExecChunk),
            ⟨"llo".toList, "yz".toList, 7, []⟩], c.error = []) ∧
    ((executeCommand [(⟨"he".toList, "x".toList, 0, []⟩ : ExecChunk),
                      ⟨"llo".toList, "yz".toList, 7, []⟩]).stdout =
       ([(⟨"he".toList, "x".toList, 0, []⟩ : ExecChunk),
         ⟨"llo".toList, "yz".toList, 7, []⟩].map ExecChunk.stdout).flatten ∧
     (executeCommand [(⟨"he".toList, "x".toList, 0, []⟩ : ExecChunk),
                      ⟨"llo".toList, "yz".toList, 7, []⟩]).stderr =
       ([(⟨"he".toList, "x".toList, 0, []⟩ : ExecChunk),
         ⟨"llo".toList, "yz".toList, 7, []⟩].map ExecChunk.stderr).flatten ∧
     ∀ chunks' : List ExecChunk, (∀ c ∈ chunks', c.error = []) →
       (chunks'.map ExecChunk.stdout).flatten =
         ([(⟨"he".toList, "x".toList, 0, []⟩ : ExecChunk),
           ⟨"llo".toList, "yz".toList, 7, []⟩].map ExecChunk.stdout).flatten →
       (chunks'.map ExecChunk.stderr).flatten =
         ([(⟨"he".toList, "x".toList, 0, []⟩ : ExecChunk),
           ⟨"llo".toList, "yz".toList, 7, []⟩].map ExecChunk.stderr).flatten →
       (executeCommand chunks').stdout =
         (executeCommand [(⟨"he".toList, "x".toList, 0, []⟩ : ExecChunk),
                          ⟨"llo".toList, "yz".toList, 7, []⟩]).stdout ∧
       (executeCommand chunks').stderr =
         (executeCommand [(⟨"he".toList, "x".toList, 0, []⟩ : ExecChunk),
                          ⟨"llo".toList, "yz".toList, 7, []⟩]).stderr) :=
  ⟨by decide, exec_output_concat _ (by decide)⟩

/-- C2 (counterexample): a chunk that sets exit code 7 followed by a
chunk that sets none: the wire-level authoritative exit code is 7, but
`executeCommand` returns 0, because the absent code decodes to the Go
zero value and overwrites the previous one. -/
theorem exec_exit_code_omission_cex :
    lastSetExitCode [(⟨[], [], some 7, []⟩ : WireChunk), ⟨"x".toList, [], none, []⟩] = some 7 ∧
    (executeCommand ([(⟨[], [], some 7, []⟩ : WireChunk),
                      ⟨"x".toList, [], none, []⟩].map decodeChunk)).exitCode = 0 ∧
    (0 : Int) ≠ 7 := by
  refine ⟨by decide, by decide, by decide⟩

/-- C2 (amended): the exit code returned by `executeCommand` on an
error-free session is the exit-code field of the last chunk consumed
(0 for an empty stream); at the wire level a chunk with an absent exit
code contributes the Go zero value 0 and overwrites the previously
observed code. -/
theorem exec_exit_code_last_chunk (chunks : List ExecChunk)
    (h : ∀ c ∈ chunks, c.error = []) :
    (executeCommand chunks).exitCode = (chunks.map ExecChunk.exitCode).getLastD 0 ∧
    ∀ ws : List WireChunk, chunks = ws.map decodeChunk →
      (executeCommand chunks).exitCode =
        (ws.map (fun w => w.exitCode.getD 0)).getLastD 0 := by
  have h1 := consumeChunks_no_error chunks h [] [] 0
  refine ⟨by simp [executeCommand, h1], ?_⟩
  rintro ws rfl
  simp only [executeCommand, h1, List.map_map]
  rfl

/-- Witness for C2's amended theorem at a concrete session. -/
theorem exec_exit_code_last_chunk_witness :
    (∀ c ∈ [(⟨[], [], 5, []⟩ : ExecChunk), ⟨"x".toList, [], 9, []⟩], c.error = []) ∧
    ((executeCommand [(⟨[], [], 5, []⟩ : ExecChunk), ⟨"x".toList, [], 9, []⟩]).exitCode =
       ([(⟨[], [], 5, []⟩ : ExecChunk), ⟨"x".toList, [], 9, []⟩].map ExecChunk.exitCode).getLastD 0 ∧
     ∀ ws : List WireChunk,
       [(⟨[], [], 5, []⟩ : ExecChunk), ⟨"x".toList, [], 9, []⟩] = ws.map decodeChunk →
       (executeCommand [(⟨[], [], 5, []⟩ : ExecChunk), ⟨"x".toList, [], 9, []⟩]).exitCode =
         (ws.map (fun w => w.exitCode.getD 0)).getLastD 0) :=
  ⟨by decide, exec_exit_code_last_chunk _ (by decide)⟩

/-- C4: on a session whose first error chunk is `bad`, `executeCommand`
returns the stdout/stderr collected before the failure point together
with a non-empty error, and `ExecResource.Create` surfaces a non-empty
diagnostic built from it. -/
theorem exec_failure_partial_output (pre rest : List ExecChunk) (bad : ExecChunk)
    (hpre : ∀ c ∈ pre, c.error = []) (hbad : bad.error ≠ [])
    (hostname command : List Char) :
    (executeCommand (pre ++ bad :: rest)).stdout = (pre.map ExecChunk.stdout).flatten ∧
    (executeCommand (pre ++ bad :: rest)).stderr = (pre.map ExecChunk.stderr).flatten ∧
    (executeCommand (pre ++ bad :: rest)).err =
      some ("exec error: ".toList ++ bad.error) ∧
    "exec error: ".toList ++ bad.error ≠ [] ∧
    execCreate hostname command (pre ++ bad :: rest) =
      .error ("Unable to execute command: ".toList ++
              ("exec error: ".toList ++ bad.error)) ∧
    "Unable to execute command: ".toList ++ ("exec error: ".toList ++ bad.error) ≠ [] := by
  have h1 := consumeChunks_error pre bad rest hpre hbad [] [] 0
  refine ⟨by simp [executeCommand, h1], by simp [executeCommand, h1],
          by simp [executeCommand, h1], by simp, ?_, by simp⟩
  simp [execCreate, executeCommand, h1]

/-- Witness for C4 at a concrete failing session. -/
theorem exec_failure_partial_output_witness :
    (∀ c ∈ [(⟨"par".toList, "tia".toList, 0, []⟩ : ExecChunk)], c.error = []) ∧
    ((⟨[], [], 1, "boom".toList⟩ : ExecChunk).error ≠ []) ∧
    ((executeCommand ([(⟨"par".toList, "tia".toList, 0, []⟩ : ExecChunk)] ++
        (⟨[], [], 1, "boom".toList⟩ : ExecChunk) :: [])).stdout =
       ([(⟨"par".toList, "tia".toList, 0, []⟩ : ExecChunk)].map ExecChunk.stdout).flatten ∧
     (executeCommand ([(⟨"par".toList, "tia".toList, 0, []⟩ : ExecChunk)] ++
        (⟨[], [], 1, "boom".toList⟩ : ExecChunk) :: [])).stderr =
       ([(⟨"par".toList, "tia".toList, 0, []⟩ : ExecChunk)].map ExecChunk.stderr).flatten ∧
     (executeCommand ([(⟨"par".toList, "tia".toList, 0, []⟩ : ExecChunk)] ++
        (⟨[], [], 1, "boom".toList⟩ : ExecChunk) :: [])).err =
       some ("exec error: ".toList ++ (⟨[], [], 1, "boom".toList⟩ : ExecChunk).error) ∧
     "exec error: ".toList ++ (⟨[], [], 1, "boom".toList⟩ : ExecChunk).error ≠ [] ∧
     execCreate ("h".toList) ("c".toList)
         ([(⟨"par".toList, "tia".toList, 0, []⟩ : ExecChunk)] ++
          (⟨[], [], 1, "boom".toList⟩ : ExecChunk) :: []) =
       .error ("Unable to execute command: ".toList ++
               ("exec error: ".toList ++ (⟨[], [], 1, "boom".toList⟩ : ExecChunk).error)) ∧
     "Unable to execute command: ".toList ++
         ("exec error: ".toList ++ (⟨[], [], 1, "boom".toList⟩ : ExecChunk).error) ≠ []) :=
  ⟨by decide, by decide,
   exec_failure_partial_output _ _ _ (by decide) (by decide) ("h".toList) ("c".toList)⟩

/-- C5 (code evaluated at the failing input): on a two-chunk stream
whose first chunk carries an error, `executeCommand` receives only one
of the two chunks from the channel — the loop returns at the error
chunk instead of draining the remaining chunk as the spec requires. -/
theorem exec_error_stops_consumption :
    consumedChunks [(⟨[], [], 1, "boom".toList⟩ : ExecChunk),
                    ⟨"tail".toList, [], 0, []⟩] = 1 ∧
    ([(⟨[], [], 1, "boom".toList⟩ : ExecChunk),
      ⟨"tail".toList, [], 0, []⟩] : List ExecChunk).length = 2 ∧
    (executeCommand [(⟨[], [], 1, "boom".toList⟩ : ExecChunk),
                     ⟨"tail".toList, [], 0, []⟩]).err =
      some ("exec error: boom".toList) := by
  refine ⟨by decide, by decide, by decide⟩

/-- C9: encoding a tag map whose keys contain no `=` as `key=value`
strings and parsing the strings back by splitting on the first `=`
recovers exactly the original entries, even when values contain `=`. -/
theorem tags_roundtrip (m : List (List Char × List Char))
    (h : ∀ p ∈ m, '=' ∉ p.1) :
    decodeTags (encodeTags m) = m := by
  induction m with
  | nil => rfl
  | cons p ps ih =>
    have hp : '=' ∉ p.1 := h p (List.mem_cons_self p ps)
    have hps : ∀ q ∈ ps, '=' ∉ q.1 := fun q hq => h q (List.mem_cons_of_mem _ hq)
    have iht := ih hps
    simp only [decodeTags, encodeTags, List.map_cons, List.filterMap_cons] at iht ⊢
    rw [goSplitN2_encode p.1 p.2 hp]
    simp [iht]

/-- Witness for C9: a map whose value contains `=` round-trips. -/
theorem tags_roundtrip_witness :
    (∀ p ∈ [("role".toList, "a=b".toList), ("env".toList, "prod".toList)], '=' ∉ p.1) ∧
    decodeTags (encodeTags [("role".toList, "a=b".toList), ("env".toList, "prod".toList)]) =
      [("role".toList, "a=b".toList), ("env".toList, "prod".toList)] :=
  ⟨by decide, tags_roundtrip _ (by decide)⟩

/-- C6: reading a secret never touches its value: `SecretResource.Read`
copies only permissions/uid/gid from the metadata listing and leaves
the prior state's value (and name/id) unchanged, and the secret data
source result is built purely from the value-free metadata record. -/
theorem secret_read_never_returns_value :
    (∀ (prior : SecretResourceModel) (secrets : List Secret) (st : SecretResourceModel),
       secretRead prior secrets = some st →
       st.value = prior.value ∧ st.name = prior.name ∧ st.id = prior.id ∧
       ∃ f, secrets.find? (fun s => s.name == prior.name) = some f ∧
         st.permissions = f.permissions ∧ st.uid = f.uid ∧ st.gid = f.gid) ∧
    (∀ (name : List Char) (secrets : List Secret) (r : SecretDataSourceModel),
       secretDataSourceRead name secrets = some r →
       ∃ f, secrets.find? (fun s => s.name == name) = some f ∧
         r = ⟨name, f.size, f.permissions, f.uid, f.gid⟩) := by
  constructor
  · intro prior secrets st h
    unfold secretRead at h
    cases hf : secrets.find? (fun s => s.name == prior.name) with
    | none => rw [hf] at h; exact absurd h (by simp)
    | some f =>
      rw [hf] at h
      simp only [Option.some.injEq] at h
      subst h
      exact ⟨rfl, rfl, rfl, f, rfl, rfl, rfl, rfl⟩
  · intro name secrets r h
    unfold secretDataSourceRead at h
    cases hf : secrets.find? (fun s => s.name == name) with
    | none => rw [hf] at h; exact absurd h (by simp)
    | some f =>
      rw [hf] at h
      simp only [Option.some.injEq] at h
      subst h
      exact ⟨f, rfl, rfl⟩

/-- Witness for C6 at a concrete state and listing. -/
theorem secret_read_never_returns_value_witness :
    secretRead ⟨"k".toList, "k".toList, "v".toList, "0600".toList, 0, 0⟩
        [⟨"k".toList, 1, "0640".toList, 10, 20⟩] =
      some ⟨"k".toList, "k".toList, "v".toList, "0640".toList, 10, 20⟩ ∧
    ((⟨"k".toList, "k".toList, "v".toList, "0640".toList, 10, 20⟩ :
        SecretResourceModel).value =
       (⟨"k".toList, "k".toList, "v".toList, "0600".toList, 0, 0⟩ :
        SecretResourceModel).value ∧
     (⟨"k".toList, "k".toList, "v".toList, "0640".toList, 10, 20⟩ :
        SecretResourceModel).name =
       (⟨"k".toList, "k".toList, "v".toList, "0600".toList, 0, 0⟩ :
        SecretResourceModel).name ∧
     (⟨"k".toList, "k".toList, "v".toList, "0640".toList, 10, 20⟩ :
        SecretResourceModel).id =
       (⟨"k".toList, "k".toList, "v".toList, "0600".toList, 0, 0⟩ :
        SecretResourceModel).id ∧
     ∃ f, [(⟨"k".toList, 1, "0640".toList, 10, 20⟩ : Secret)].find?
             (fun s => s.name == (⟨"k".toList, "k".toList, "v".toList, "0600".toList, 0, 0⟩ :
                SecretResourceModel).name) = some f ∧
       (⟨"k".toList, "k".toList, "v".toList, "0640".toList, 10, 20⟩ :
          SecretResourceModel).permissions = f.permissions ∧
       (⟨"k".toList, "k".toList, "v".toList, "0640".toList, 10, 20⟩ :
          SecretResourceModel).uid = f.uid ∧
       (⟨"k".toList, "k".toList, "v".toList, "0640".toList, 10, 20⟩ :
          SecretResourceModel).gid = f.gid) :=
  ⟨by decide,
   secret_read_never_returns_value.1
     ⟨"k".toList, "k".toList, "v".toList, "0600".toList, 0, 0⟩
     [⟨"k".toList, 1, "0640".toList, 10, 20⟩]
     ⟨"k".toList, "k".toList, "v".toList, "0640".toList, 10, 20⟩ (by decide)⟩

/-- C7: wherever a VM's IP is exposed (create, read, both data
sources), a value containing `/` is cut to the prefix before the first
`/` and a value without `/` passes through unchanged. -/
theorem vm_ip_strip_cidr :
    (∀ ip : List Char, '/' ∈ ip →
       parseIP ip = ip.takeWhile (fun c => c != '/') ∧
       '/' ∉ parseIP ip ∧
       ∃ rest, ip = parseIP ip ++ '/' :: rest) ∧
    (∀ ip : List Char, '/' ∉ ip → parseIP ip = ip) ∧
    (∀ node : SlicerNode, (vmCreateComputed node).ip = parseIP node.ip) ∧
    (∀ (prior : VMState) (vms : List SlicerNode) (st : VMState),
       vmRead prior vms = some st →
       ∃ f, vms.find? (fun v => v.hostname == prior.hostname) = some f ∧
         st.ip = parseIP f.ip) ∧
    (∀ (hostname : List Char) (vms : List SlicerNode) (r : VMDataSourceModel),
       vmDataSourceRead hostname vms = some r →
       ∃ f, vms.find? (fun v => v.hostname == hostname) = some f ∧
         r.ip = parseIP f.ip) := by
  have hstrip : ∀ ip : List Char, '/' ∈ ip →
      parseIP ip = ip.takeWhile (fun c => c != '/') := by
    intro ip h
    have hc : ip.contains '/' = true := by
      simpa using h
    rw [parseIP, if_pos hc, goSplit_headD]
  refine ⟨?_, ?_, ?_, ?_, ?_⟩
  · intro ip h
    refine ⟨hstrip ip h, ?_, ?_⟩
    · intro hmem
      rw [hstrip ip h] at hmem
      have := List.mem_takeWhile_imp hmem
      simp at this
    · rcases dropWhile_of_mem '/' ip h with ⟨rest, hr⟩
      refine ⟨rest, ?_⟩
      conv_lhs => rw [← List.takeWhile_append_dropWhile (p := fun c => c != '/') (l := ip)]
      rw [hr, hstrip ip h]
  · intro ip h
    rw [parseIP, if_neg (fun hcontains => h (by simpa using hcontains))]
  · intro node; rfl
  · intro prior vms st h
    unfold vmRead at h
    cases hf : vms.find? (fun v => v.hostname == prior.hostname) with
    | none => rw [hf] at h; exact absurd h (by simp)
    | some f =>
      rw [hf] at h
      simp only [Option.some.injEq] at h
      subst h
      exact ⟨f, rfl, rfl⟩
  · intro hostname vms r h
    unfold vmDataSourceRead at h
    cases hf : vms.find? (fun v => v.hostname == hostname) with
    | none => rw [hf] at h; exact absurd h (by simp)
    | some f =>
      rw [hf] at h
      simp only [Option.some.injEq] at h
      subst h
      exact ⟨f, rfl, rfl⟩

/-- Witness for C7 at `10.0.0.5/24` and a bare address. -/
theorem vm_ip_strip_cidr_witness :
    ('/' ∈ "10.0.0.5/24".toList) ∧
    (parseIP ("10.0.0.5/24".toList) = "10.0.0.5/24".toList.takeWhile (fun c => c != '/') ∧
     '/' ∉ parseIP ("10.0.0.5/24".toList) ∧
     ∃ rest, "10.0.0.5/24".toList = parseIP ("10.0.0.5/24".toList) ++ '/' :: rest) ∧
    ('/' ∉ "10.0.0.5".toList) ∧
    parseIP ("10.0.0.5".toList) = "10.0.0.5".toList :=
  ⟨by decide, vm_ip_strip_cidr.1 ("10.0.0.5/24".toList) (by decide), by decide,
   vm_ip_strip_cidr.2.1 ("10.0.0.5".toList) (by decide)⟩

/-- C8: the create request carries a CPU count iff the planned `cpus`
is non-null and positive, and a RAM size iff the planned `ram_gb` is
non-null and positive; an explicit zero is never sent. -/
theorem vm_create_request_optional_fields (m : VMPlan) :
    ((buildCreateRequest m).cpus.isSome ↔ m.cpus.isSome ∧ m.cpus.getD 0 > 0) ∧
    ((buildCreateRequest m).ramBytes.isSome ↔ m.ramGB.isSome ∧ m.ramGB.getD 0 > 0) ∧
    (buildCreateRequest m).cpus ≠ some 0 ∧
    (buildCreateRequest m).ramBytes ≠ some 0 ∧
    (∀ n : Int, m.cpus = some n → 0 < n → (buildCreateRequest m).cpus = some n) ∧
    (∀ n : Int, m.ramGB = some n → 0 < n →
       (buildCreateRequest m).ramBytes = some (GiB n)) := by
  have hc : (buildCreateRequest m).cpus =
      if m.cpus.isSome ∧ m.cpus.getD 0 > 0 then some (m.cpus.getD 0) else none := rfl
  have hr : (buildCreateRequest m).ramBytes =
      if m.ramGB.isSome ∧ m.ramGB.getD 0 > 0 then some (GiB (m.ramGB.getD 0)) else none := rfl
  refine ⟨?_, ?_, ?_, ?_, ?_, ?_⟩
  · rw [hc]; split_ifs with h <;> simp [h]
  · rw [hr]; split_ifs with h <;> simp [h]
  · rw [hc]; split_ifs with h
    · rcases h with ⟨-, h2⟩
      intro heq
      rw [Option.some.injEq] at heq
      omega
    · simp
  · rw [hr]; split_ifs with h
    · rcases h with ⟨-, h2⟩
      intro heq
      rw [Option.some.injEq] at heq
      unfold GiB at heq
      omega
    · simp
  · intro n hn hpos
    rw [hc, if_pos (by simp [hn]; omega), hn]
    rfl
  · intro n hn hpos
    rw [hr, if_pos (by simp [hn]; omega), hn]
    rfl

/-- Witness for C8: a fully concrete plan with `cpus = 2`, `ram_gb = 8`. -/
theorem vm_create_request_optional_fields_witness :
    (buildCreateRequest ⟨"w1-medium".toList, some 2, some 8, none, none, none, none,
        none, none, none⟩).cpus = some 2 ∧
    (buildCreateRequest ⟨"w1-medium".toList, some 2, some 8, none, none, none, none,
        none, none, none⟩).ramBytes = some (GiB 8) :=
  ⟨(vm_create_request_optional_fields _).2.2.2.2.1 2 rfl (by decide),
   (vm_create_request_optional_fields _).2.2.2.2.2 8 rfl (by decide)⟩

/-- C10: a file plan with `content` and `source` both null, or both
set, is rejected by `FileResource.Create` with the corresponding
diagnostic for every filesystem and every transfer behavior — so no
payload is read or hashed, `CpToVM` is never called and no state is
written. -/
theorem file_create_conflicting_attrs (m : FileModel) :
    (m.content.isNone ∧ m.source.isNone →
       ∀ (fs : List Char → Option (List Nat)) (t : TransferArgs → Except (List Char) Unit),
         fileCreate fs t m = .error ("Missing File Content".toList)) ∧
    (m.content.isSome ∧ m.source.isSome →
       ∀ (fs : List Char → Option (List Nat)) (t : TransferArgs → Except (List Char) Unit),
         fileCreate fs t m = .error ("Conflicting Attributes".toList)) := by
  constructor
  · intro h fs t
    unfold fileCreate
    rw [if_pos h]
  · intro h fs t
    have hne : ¬ (m.content.isNone ∧ m.source.isNone) := by
      rcases h with ⟨h1, -⟩
      rintro ⟨a, -⟩
      rw [Option.isNone_iff_eq_none] at a
      rw [a] at h1
      exact absurd h1 (by simp)
    unfold fileCreate
    rw [if_neg hne, if_pos h]

/-- Witness for C10: both shapes rejected even under a transfer
function that would report being called. -/
theorem file_create_conflicting_attrs_witness :
    fileCreate (fun _ => none) (fun _ => .error ("called".toList))
        ⟨"h".toList, "d".toList, none, none, "0644".toList, 0, 0⟩ =
      .error ("Missing File Content".toList) ∧
    fileCreate (fun _ => none) (fun _ => .error ("called".toList))
        ⟨"h".toList, "d".toList, some [97], some ("p".toList), "0644".toList, 0, 0⟩ =
      .error ("Conflicting Attributes".toList) :=
  ⟨(file_create_conflicting_attrs _).1 (by decide) _ _,
   (file_create_conflicting_attrs _).2 (by decide) _ _⟩

/-- When `copyFile` succeeds, the returned string is the lowercase hex
SHA-256 digest of the resolved payload, whatever the transfer did. -/
theorem copyFile_ok (fs : List Char → Option (List Nat))
    (t : TransferArgs → Except (List Char) Unit) (m : FileModel) (d : List Char)
    (hc : copyFile fs t m = .ok d) :
    ∃ bytes, readContent fs m = .ok bytes ∧ d = sha256hex bytes := by
  unfold copyFile at hc
  cases hrc : readContent fs m with
  | error e => rw [hrc] at hc; exact absurd hc (by simp)
  | ok bytes =>
    rw [hrc] at hc
    simp only at hc
    cases ht : t ⟨m.hostname, bytes, m.destination, m.owner, m.group,
                 m.permissions, "binary".toList⟩ with
    | error e => rw [ht] at hc; exact absurd hc (by simp)
    | ok u =>
      rw [ht] at hc
      simp only [Except.ok.injEq] at hc
      exact ⟨bytes, rfl, hc.symm⟩

/-- C1: whenever a file create or update succeeds, the stored
`content_hash` is the lowercase hex SHA-256 digest of exactly the
resolved payload bytes (the `content` attribute or the bytes read from
`source`); the digest is computed client-side from the payload alone,
so it is the same for any two transfer behaviors/modes that succeed. -/
theorem file_digest_roundtrip :
    (∀ (fs : List Char → Option (List Nat)) (t : TransferArgs → Except (List Char) Unit)
       (m : FileModel) (st : FileState),
       fileCreate fs t m = .ok st →
       ∃ bytes, readContent fs m = .ok bytes ∧ st.contentHash = sha256hex bytes ∧
         st.id = m.hostname ++ ':' :: m.destination) ∧
    (∀ (fs : List Char → Option (List Nat)) (t : TransferArgs → Except (List Char) Unit)
       (priorId : List Char) (m : FileModel) (st : FileState),
       fileUpdate fs t priorId m = .ok st →
       ∃ bytes, readContent fs m = .ok bytes ∧ st.contentHash = sha256hex bytes) ∧
    (∀ (fs : List Char → Option (List Nat))
       (t₁ t₂ : TransferArgs → Except (List Char) Unit) (m : FileModel)
       (st₁ st₂ : FileState),
       fileCreate fs t₁ m = .ok st₁ → fileCreate fs t₂ m = .ok st₂ →
       st₁.contentHash = st₂.contentHash) := by
  have hcreate : ∀ (fs : List Char → Option (List Nat))
      (t : TransferArgs → Except (List Char) Unit) (m : FileModel) (st : FileState),
      fileCreate fs t m = .ok st →
      ∃ bytes, readContent fs m = .ok bytes ∧ st.contentHash = sha256hex bytes ∧
        st.id = m.hostname ++ ':' :: m.destination := by
    intro fs t m st h
    unfold fileCreate at h
    split at h
    · exact absurd h (by simp)
    · split at h
      · exact absurd h (by simp)
      · cases hcf : copyFile fs t m with
        | error e => rw [hcf] at h; exact absurd h (by simp)
        | ok d =>
          rw [hcf] at h
          simp only [Except.ok.injEq] at h
          rcases copyFile_ok fs t m d hcf with ⟨bytes, hb, hd⟩
          exact ⟨bytes, hb, by rw [← h, hd], by rw [← h]⟩
  refine ⟨hcreate, ?_, ?_⟩
  · intro fs t priorId m st h
    unfold fileUpdate at h
    cases hcf : copyFile fs t m with
    | error e => rw [hcf] at h; exact absurd h (by simp)
    | ok d =>
      rw [hcf] at h
      simp only [Except.ok.injEq] at h
      rcases copyFile_ok fs t m d hcf with ⟨bytes, hb, hd⟩
      exact ⟨bytes, hb, by rw [← h, hd]⟩
  · intro fs t₁ t₂ m st₁ st₂ h₁ h₂
    rcases hcreate fs t₁ m st₁ h₁ with ⟨b₁, hb₁, hh₁, -⟩
    rcases hcreate fs t₂ m st₂ h₂ with ⟨b₂, hb₂, hh₂, -⟩
    rw [hb₁] at hb₂
    simp only [Except.ok.injEq] at hb₂
    rw [hh₁, hh₂, hb₂]

/-- Witness for C1: creating a file with content bytes `"abc"` stores
the FIPS 180-4 test-vector digest as `content_hash`. -/
theorem file_digest_roundtrip_witness :
    fileCreate (fun _ => none) (fun _ => .ok ())
        ⟨"h".toList, "d".toList, some [97, 98, 99], none, "0644".toList, 0, 0⟩ =
      .ok ⟨"h:d".toList,
           "ba7816bf8f01cfea414140de5dae2223b00361a396177a9cb410ff61f20015ad".toList⟩ ∧
    ∃ bytes,
      readContent (fun _ => none)
          ⟨"h".toList, "d".toList, some [97, 98, 99], none, "0644".toList, 0, 0⟩ =
        .ok bytes ∧
      (⟨"h:d".toList,
        "ba7816bf8f01cfea414140de5dae2223b00361a396177a9cb410ff61f20015ad".toList⟩ :
          FileState).contentHash = sha256hex bytes ∧
      (⟨"h:d".toList,
        "ba7816bf8f01cfea414140de5dae2223b00361a396177a9cb410ff61f20015ad".toList⟩ :
          FileState).id =
        (⟨"h".toList, "d".toList, some [97, 98, 99], none, "0644".toList, 0, 0⟩ :
            FileModel).hostname ++ ':' ::
          (⟨"h".toList, "d".toList, some [97, 98, 99], none, "0644".toList, 0, 0⟩ :
            FileModel).destination :=
  ⟨by rfl,
   file_digest_roundtrip.1 (fun _ => none) (fun _ => .ok ())
     ⟨"h".toList, "d".toList, some [97, 98, 99], none, "0644".toList, 0, 0⟩
     ⟨"h:d".toList,
      "ba7816bf8f01cfea414140de5dae2223b00361a396177a9cb410ff61f20015ad".toList⟩
     (by rfl)⟩

end Slicer
